import Mathlib

/-!
Shallow embedding of the rwg WireGuard configuration library
(crates `rwg` and `libwg-sys`): the data model (Key, AllowedIp, Endpoint,
Peer, Device), the address-family codec in `net.rs`, and the bidirectional
marshaling between the safe tree and the foreign `wg_device` /  `wg_peer` /
`wg_allowedip` records.

Modelling conventions:
- machine integers are `Nat` (u8/u16/u32 values; bounds appear as hypotheses
  where they matter);
- raw pointers into the transient sibling buffers are arena indices
  (`Option Nat`, `none` = null), following the contiguous-buffer layout the
  source builds (`Vec` of records with `next` pointers into the same `Vec`);
- panics (`expect`, the `wtf => ...` match arms) are `Except.error`;
- the host is little-endian, which the source itself assumes (its IPv4 decode
  path reads `s_addr.to_le_bytes()` as the memory bytes); union reads of
  `__u6_addr16` therefore pair bytes as `b[2i] + 256 * b[2i+1]`;
- the fixed 16-byte interface-name array is modelled as an unbounded byte
  buffer (the length limit is a memory-layout concern outside these claims);
- the `base64` crate (standard alphabet, `=` padding) and the constants from
  the generated `libwg-sys` bindings (`wireguard.h` enums, Linux `AF_*`) are
  external to `src/` and are modelled from their documented values.
-/

deriving instance DecidableEq for Except

/-- Linux address-family constant for IPv4, from the generated bindings. -/
def AF_INET : Nat := 2

/-- Linux address-family constant for IPv6, from the generated bindings. -/
def AF_INET6 : Nat := 10

/-- wg_device_flags bit WGDEVICE_REPLACE_PEERS = 1 << 0 (wireguard.h). -/
def WGDEVICE_REPLACE_PEERS : Nat := 1

/-- wg_device_flags bit WGDEVICE_HAS_PRIVATE_KEY = 1 << 1 (wireguard.h). -/
def WGDEVICE_HAS_PRIVATE_KEY : Nat := 2

/-- wg_device_flags bit WGDEVICE_HAS_PUBLIC_KEY = 1 << 2 (wireguard.h). -/
def WGDEVICE_HAS_PUBLIC_KEY : Nat := 4

/-- wg_device_flags bit WGDEVICE_HAS_LISTEN_PORT = 1 << 3 (wireguard.h). -/
def WGDEVICE_HAS_LISTEN_PORT : Nat := 8

/-- wg_peer_flags bit WGPEER_REPLACE_ALLOWEDIPS = 1 << 1 (wireguard.h). -/
def WGPEER_REPLACE_ALLOWEDIPS : Nat := 2

/-- wg_peer_flags bit WGPEER_HAS_PUBLIC_KEY = 1 << 2 (wireguard.h). -/
def WGPEER_HAS_PUBLIC_KEY : Nat := 4

/-- Model of `std::net::IpAddr`: `v4` carries the four octets, `v6` the eight
16-bit segments (the arguments of `Ipv4Addr::new` / `Ipv6Addr::new`). -/
inductive IpAddr where
  | v4 (a b c d : Nat)
  | v6 (s0 s1 s2 s3 s4 s5 s6 s7 : Nat)
  deriving DecidableEq

/-- True exactly on IPv4 addresses. -/
def IpAddr.isV4 : IpAddr → Bool
  | .v4 _ _ _ _ => true
  | .v6 _ _ _ _ _ _ _ _ => false

/-- Model of `rwg::peer::Endpoint = (IpAddr, u16)`. -/
abbrev Endpoint := IpAddr × Nat

/-- Model of `rwg::key::KEY_SIZE`. -/
def KEY_SIZE : Nat := 32

/-- Model of `rwg::key::Key`: the 32 raw bytes (`[u8; 32]`), as a byte list. -/
structure Key where
  bytes : List Nat
  deriving DecidableEq

/-- Model of `rwg::key::InvalidKey`. -/
inductive InvalidKey where
  | InvalidLength
  | InvalidBase64
  deriving DecidableEq

/-- Standard Base64 alphabet used by the `base64` crate's default config. -/
def b64Alphabet : List Char :=
  "ABCDEFGHIJKLMNOPQRSTUVWXYZabcdefghijklmnopqrstuvwxyz0123456789+/".toList

/-- Character for a 6-bit group. -/
def sextetToChar (s : Nat) : Char := b64Alphabet.getD s 'A'

/-- Inverse lookup in the Base64 alphabet. -/
def charToSextet (c : Char) : Option Nat :=
  let i := b64Alphabet.indexOf c
  if i < 64 then some i else none

/-- Modelled from the spec: `base64::encode` (RFC 4648 standard alphabet with
`=` padding), the crate used by `Key::to_base64`; it is an external
dependency, not part of `src/`. -/
def b64Encode : List Nat → List Char
  | b0 :: b1 :: b2 :: rest =>
      sextetToChar (b0 / 4) :: sextetToChar (b0 % 4 * 16 + b1 / 16) ::
        sextetToChar (b1 % 16 * 4 + b2 / 64) :: sextetToChar (b2 % 64) ::
          b64Encode rest
  | [b0, b1] =>
      [sextetToChar (b0 / 4), sextetToChar (b0 % 4 * 16 + b1 / 16),
        sextetToChar (b1 % 16 * 4), '=']
  | [b0] =>
      [sextetToChar (b0 / 4), sextetToChar (b0 % 4 * 16), '=', '=']
  | [] => []

/-- Modelled from the spec: `base64::decode` (standard alphabet, strict
`=` padding), the crate used by `Key::from_base64`. -/
def b64Decode : List Char → Option (List Nat)
  | [] => some []
  | c0 :: c1 :: c2 :: c3 :: rest =>
    match charToSextet c0, charToSextet c1 with
    | some s0, some s1 =>
      if c2 = '=' then
        if c3 = '=' then
          if rest = [] then some [s0 * 4 + s1 / 16] else none
        else none
      else
        match charToSextet c2 with
        | some s2 =>
          if c3 = '=' then
            if rest = [] then some [s0 * 4 + s1 / 16, s1 % 16 * 16 + s2 / 4]
            else none
          else
            match charToSextet c3 with
            | some s3 =>
              (b64Decode rest).map
                (fun t => (s0 * 4 + s1 / 16) :: (s1 % 16 * 16 + s2 / 4) ::
                  (s2 % 4 * 64 + s3) :: t)
            | none => none
        | none => none
    | _, _ => none
  | _ => none

/-- Model of `Key::from_bytes`. -/
def Key.from_bytes (l : List Nat) : Key := ⟨l⟩

/-- Model of `Key::as_bytes`. -/
def Key.as_bytes (k : Key) : List Nat := k.bytes

/-- Model of `Key::from_slice`: length check, then copy. -/
def Key.from_slice (l : List Nat) : Except InvalidKey Key :=
  if l.length ≠ KEY_SIZE then .error .InvalidLength else .ok ⟨l⟩

/-- Model of `Key::to_base64`. -/
def Key.to_base64 (k : Key) : List Char := b64Encode k.bytes

/-- Model of `Key::from_base64`: decode (InvalidBase64 on failure), length
check (InvalidLength), then copy. -/
def Key.from_base64 (s : List Char) : Except InvalidKey Key :=
  match b64Decode s with
  | none => .error .InvalidBase64
  | some v => if v.length ≠ KEY_SIZE then .error .InvalidLength else .ok ⟨v⟩

/-- Model of the 16 memory bytes written by `write_ip6_to_in6_addr`: the
`Ipv6Addr::octets()`, big-endian within each segment, copied into
`__u6_addr8`. -/
def write_ip6_to_in6_addr (s0 s1 s2 s3 s4 s5 s6 s7 : Nat) : List Nat :=
  [s0 / 256, s0 % 256, s1 / 256, s1 % 256, s2 / 256, s2 % 256,
   s3 / 256, s3 % 256, s4 / 256, s4 % 256, s5 / 256, s5 % 256,
   s6 / 256, s6 % 256, s7 / 256, s7 % 256]

/-- Model of `read_ip6_from_in6_addr`: the union field `__u6_addr16` reads the
memory bytes as native (little-endian) u16s, so segment i is
`b[2i] + 256 * b[2i+1]`; those values are handed to `Ipv6Addr::new` as host
segments. -/
def read_ip6_from_in6_addr (b : List Nat) : IpAddr :=
  .v6 (b.getD 0 0 + 256 * b.getD 1 0) (b.getD 2 0 + 256 * b.getD 3 0)
    (b.getD 4 0 + 256 * b.getD 5 0) (b.getD 6 0 + 256 * b.getD 7 0)
    (b.getD 8 0 + 256 * b.getD 9 0) (b.getD 10 0 + 256 * b.getD 11 0)
    (b.getD 12 0 + 256 * b.getD 13 0) (b.getD 14 0 + 256 * b.getD 15 0)

/-- Byte-level model of `ptr::copy_nonoverlapping::<T>(src, dst, count)` on
byte-addressed memory: it copies `count` elements of `size_of::<T>()` bytes
each, i.e. `elemSize * count` bytes, from the source memory onto the
destination memory. -/
def copyNonoverlapping (elemSize count : Nat) (src dst : Nat → Nat) : Nat → Nat :=
  fun i => if i < elemSize * count then src i else dst i

/-- Byte-level model of `write_ip4_to_in_addr`: the source calls
`ptr::copy_nonoverlapping` with `*const u32` / `*mut u32` pointers
(element size 4) and count 4, reading from the address of the 4-octet
`octets()` array. Offset 0 of the modelled memory is the first octet /
the first byte of `s_addr`; `junk` is whatever memory sits after the 4-byte
source array. -/
def write_ip4_to_in_addr_mem (a b c d : Nat) (junk : Nat → Nat)
    (dst : Nat → Nat) : Nat → Nat :=
  copyNonoverlapping 4 4
    (fun i =>
      if i = 0 then a else if i = 1 then b else if i = 2 then c
      else if i = 3 then d else junk i)
    dst

/-- Field-level view of `write_ip4_to_in_addr`: the 4 memory bytes of the
`s_addr` field after the call are exactly the source octets (the first 4 of
the 16 copied bytes; the 12 excess bytes land past the field and are never
read back by the v4 decode paths, see `write_ip4_oob_copy`). -/
def write_ip4_to_in_addr (a b c d : Nat) : List Nat := [a, b, c, d]

/-- Model of the foreign sockaddr union inside `wg_peer` (`sockaddr` /
`sockaddr_in` / `sockaddr_in6` sharing storage): the family tag, the raw
port field, the 4 memory bytes of `sin_addr.s_addr`, and the 16 memory bytes
of `sin6_addr`. The two address fields sit at distinct offsets and are only
ever read under their own family tag, so they are modelled as separate
fields. -/
structure Sockaddr where
  sa_family : Nat
  port : Nat
  v4bytes : List Nat
  v6bytes : List Nat
  deriving DecidableEq

/-- Zero-initialized sockaddr storage (`mem::zeroed`). -/
def Sockaddr.zeroed : Sockaddr :=
  ⟨0, 0, List.replicate 4 0, List.replicate 16 0⟩

/-- Model of `endpoint_to_sockaddr`: writes family, raw port and the address
bytes of the matching family into the given storage. -/
def endpoint_to_sockaddr (e : Endpoint) (saddr : Sockaddr) : Sockaddr :=
  match e.1 with
  | .v4 a b c d =>
      { saddr with
        sa_family := AF_INET
        port := e.2
        v4bytes := write_ip4_to_in_addr a b c d }
  | .v6 s0 s1 s2 s3 s4 s5 s6 s7 =>
      { saddr with
        sa_family := AF_INET6
        port := e.2
        v6bytes := write_ip6_to_in6_addr s0 s1 s2 s3 s4 s5 s6 s7 }

/-- Model of `sockaddr_to_endpoint`: dispatch on `sa_family`; `AF_INET` reads
`s_addr.to_le_bytes()` (the memory bytes), `AF_INET6` goes through
`read_ip6_from_in6_addr`, family 0 is "no endpoint", anything else panics. -/
def sockaddr_to_endpoint (saddr : Sockaddr) : Except String (Option Endpoint) :=
  if saddr.sa_family = AF_INET then
    .ok (some (.v4 (saddr.v4bytes.getD 0 0) (saddr.v4bytes.getD 1 0)
      (saddr.v4bytes.getD 2 0) (saddr.v4bytes.getD 3 0), saddr.port))
  else if saddr.sa_family = AF_INET6 then
    .ok (some (read_ip6_from_in6_addr saddr.v6bytes, saddr.port))
  else if saddr.sa_family = 0 then
    .ok none
  else
    .error "Unknown AF address family"

/-- Model of `rwg::peer::AllowedIp`. -/
structure AllowedIp where
  address : IpAddr
  mask : Nat
  deriving DecidableEq

/-- Model of the foreign `wg_allowedip` record: family tag, the two views of
the address union (`in_addr` memory bytes / `in6_addr` memory bytes), the
cidr byte and the `next_allowedip` pointer (arena index). -/
structure wg_allowedip where
  family : Nat
  ip4 : List Nat
  ip6 : List Nat
  cidr : Nat
  next_allowedip : Option Nat
  deriving DecidableEq

/-- Zero-initialized `wg_allowedip` (`mem::zeroed`). -/
def wg_allowedip.zeroed : wg_allowedip :=
  ⟨0, List.replicate 4 0, List.replicate 16 0, 0, none⟩

/-- Replace the `next_allowedip` pointer (the assignment in the link loop). -/
def wg_allowedip.withNext (h : wg_allowedip) (x : Option Nat) : wg_allowedip :=
  { h with next_allowedip := x }

/-- Model of `AllowedIp::from_handle`: dispatch on the family tag; a tag that
is neither `AF_INET` nor `AF_INET6` (including 0) panics. -/
def AllowedIp.from_handle (h : wg_allowedip) : Except String AllowedIp :=
  if h.family = AF_INET then
    .ok ⟨.v4 (h.ip4.getD 0 0) (h.ip4.getD 1 0) (h.ip4.getD 2 0)
      (h.ip4.getD 3 0), h.cidr⟩
  else if h.family = AF_INET6 then
    .ok ⟨read_ip6_from_in6_addr h.ip6, h.cidr⟩
  else
    .error "Got an invalid AF address family"

/-- Model of `AllowedIp::handle`: zero-initialize, write family and address
via the codec, then the cidr byte. -/
def AllowedIp.handle (ip : AllowedIp) : wg_allowedip :=
  let base :=
    match ip.address with
    | .v4 a b c d =>
        { wg_allowedip.zeroed with
          family := AF_INET
          ip4 := write_ip4_to_in_addr a b c d }
    | .v6 s0 s1 s2 s3 s4 s5 s6 s7 =>
        { wg_allowedip.zeroed with
          family := AF_INET6
          ip6 := write_ip6_to_in6_addr s0 s1 s2 s3 s4 s5 s6 s7 }
  { base with cidr := ip.mask }

/-- Model of `rwg::peer::Peer`. -/
structure Peer where
  public_key : Option Key
  endpoint : Option Endpoint
  allowed_ips : List AllowedIp
  deriving DecidableEq

/-- Model of the foreign `wg_peer` record. -/
structure wg_peer where
  flags : Nat
  public_key : List Nat
  endpoint : Sockaddr
  first_allowedip : Option Nat
  last_allowedip : Option Nat
  next_peer : Option Nat
  deriving DecidableEq

/-- Zero-initialized `wg_peer` (`mem::zeroed`). -/
def wg_peer.zeroed : wg_peer :=
  ⟨0, List.replicate 32 0, Sockaddr.zeroed, none, none, none⟩

/-- Model of `rwg::peer::Handle`: the foreign peer record together with the
owned contiguous buffer of foreign allowed-ip records its pointers index. -/
structure PeerHandle where
  handle : wg_peer
  allowed_ips : List wg_allowedip
  deriving DecidableEq

/-- Replace the `next_peer` pointer of a peer handle (the assignment in the
device link loop). -/
def PeerHandle.withNext (ph : PeerHandle) (x : Option Nat) : PeerHandle :=
  ⟨{ ph.handle with next_peer := x }, ph.allowed_ips⟩

/-- The link loop of `Peer::handle`: record i points to buffer slot i+1,
except the last, whose zeroed null `next` is left untouched (the loop guard
`i + 1 < allowed_ips_len`). -/
def linkIps (l : List wg_allowedip) : List wg_allowedip :=
  l.enum.map
    (fun q => if q.1 + 1 < l.length then (q.2).withNext (some (q.1 + 1))
      else q.2)

/-- Model of `Peer::handle`: zero-initialize; set the public-key flag and
bytes when present; encode the endpoint (or keep zeroed storage); always set
the replace-allowed-ips flag; materialize one record per allowed IP in list
order and link each record to the next buffer slot (the last keeps its zeroed
null `next`); record first/last pointers, null on an empty list. -/
def Peer.handle (p : Peer) : PeerHandle :=
  let h0 := wg_peer.zeroed
  let h1 :=
    match p.public_key with
    | some k =>
        { h0 with
          flags := h0.flags ||| WGPEER_HAS_PUBLIC_KEY
          public_key := k.bytes }
    | none => h0
  let h2 :=
    match p.endpoint with
    | some e => { h1 with endpoint := endpoint_to_sockaddr e h1.endpoint }
    | none => { h1 with endpoint := Sockaddr.zeroed }
  let h3 := { h2 with flags := h2.flags ||| WGPEER_REPLACE_ALLOWEDIPS }
  let ips0 := p.allowed_ips.map AllowedIp.handle
  let ips := linkIps ips0
  let h4 :=
    if p.allowed_ips.isEmpty then
      { h3 with first_allowedip := none, last_allowedip := none }
    else
      { h3 with
        first_allowedip := some 0
        last_allowedip := some (ips0.length - 1) }
  ⟨h4, ips⟩

/-- Forward traversal of an arena-backed singly-linked list: follow `next`
indices from a start pointer, collecting the visited records. `fuel` bounds
the walk (the source loop has no bound; every chain the encoder builds is
finite and covered by `fuel = arena length`). -/
def walkChain {α : Type} (g : α → Option Nat) (arena : List α) :
    Option Nat → Nat → Option (List α)
  | none, _ => some []
  | some _, 0 => none
  | some i, fuel + 1 =>
    match arena[i]? with
    | none => none
    | some a =>
      match walkChain g arena (g a) fuel with
      | none => none
      | some rest => some (a :: rest)

/-- The decode loops of `Peer::from_handle` / `Device::from_handle`: walk the
chain from the head pointer, decoding each visited record in order; a decode
panic propagates, a dangling index or an over-long chain is a stuck loop. -/
def decodeChain {α β : Type} (dec : α → Except String β) (g : α → Option Nat)
    (arena : List α) : Option Nat → Nat → Except String (List β)
  | none, _ => .ok []
  | some _, 0 => .error "unterminated foreign list"
  | some i, fuel + 1 =>
    match arena[i]? with
    | none => .error "dangling foreign pointer"
    | some a =>
      match dec a with
      | .error e => .error e
      | .ok b =>
        match decodeChain dec g arena (g a) fuel with
        | .error e => .error e
        | .ok rest => .ok (b :: rest)

/-- Model of `Peer::from_handle`: read the public-key flag, decode the
endpoint via the codec, then walk the allowed-ip list to completion in
forward order. -/
def Peer.from_handle (ph : PeerHandle) : Except String Peer :=
  let public_key :=
    if ph.handle.flags &&& WGPEER_HAS_PUBLIC_KEY ≠ 0 then
      some (Key.from_bytes ph.handle.public_key)
    else none
  match sockaddr_to_endpoint ph.handle.endpoint with
  | .error e => .error e
  | .ok endpoint =>
    match decodeChain AllowedIp.from_handle (fun a => a.next_allowedip)
        ph.allowed_ips ph.handle.first_allowedip ph.allowed_ips.length with
    | .error e => .error e
    | .ok ips => .ok ⟨public_key, endpoint, ips⟩

/-- Model of `rwg::device::Device`. The name is the UTF-8 byte string of the
Rust `String`. -/
structure Device where
  name : List Nat
  private_key : Option Key
  listen_port : Option Nat
  peers : List Peer
  deriving DecidableEq

/-- Model of the foreign `wg_device` record. -/
structure wg_device where
  name : List Nat
  flags : Nat
  private_key : List Nat
  public_key : List Nat
  listen_port : Nat
  first_peer : Option Nat
  last_peer : Option Nat
  deriving DecidableEq

/-- Zero-initialized `wg_device` (`mem::zeroed`); the name buffer is the
zeroed `char[16]` array. -/
def wg_device.zeroed : wg_device :=
  ⟨List.replicate 16 0, 0, List.replicate 32 0, List.replicate 32 0, 0,
    none, none⟩

/-- Model of `rwg::device::Handle`: the foreign device record plus the owned
buffer of peer handles its peer-list pointers index. -/
structure DeviceHandle where
  h : wg_device
  peers : List PeerHandle
  deriving DecidableEq

/-- The link loop of `Device::handle`: peer handle i points to buffer slot
i+1, and the last peer's `next` is explicitly set to null (both branches of
the loop assign). -/
def linkPeers (l : List PeerHandle) : List PeerHandle :=
  l.enum.map
    (fun q =>
      if q.1 + 1 < l.length then (q.2).withNext (some (q.1 + 1))
      else (q.2).withNext none)

/-- Model of `Device::handle`. `dp` stands in for the external
`wg_generate_public_key` primitive behind `Key::derive_public` (out of
`src/`; the spec only fixes that it is a deterministic function of the 32
input bytes, so the embedding is parametric in it). The name bytes are
copied over the zeroed name buffer; private key and listen port set their
flags and fields when present (the paired public key is derived and written
alongside); the replace-peers flag is always set; peer handles are linked
each to the next buffer slot (last explicitly null) and first/last pointers
recorded, null on an empty list. -/
def Device.handle (dp : Key → Key) (d : Device) : DeviceHandle :=
  let h0 := wg_device.zeroed
  let h1 := { h0 with name := d.name ++ (List.replicate 16 0).drop d.name.length }
  let h2 :=
    match d.private_key with
    | some k =>
        { h1 with
          flags := h1.flags ||| WGDEVICE_HAS_PRIVATE_KEY
          private_key := k.bytes
          public_key := (dp k).bytes }
    | none => h1
  let h3 :=
    match d.listen_port with
    | some port =>
        { h2 with
          flags := h2.flags ||| WGDEVICE_HAS_LISTEN_PORT
          listen_port := port }
    | none => h2
  let h4 := { h3 with flags := h3.flags ||| WGDEVICE_REPLACE_PEERS }
  let peers0 := d.peers.map Peer.handle
  let peers := linkPeers peers0
  let h5 :=
    if peers0.isEmpty then { h4 with first_peer := none, last_peer := none }
    else
      { h4 with
        first_peer := some 0
        last_peer := some (peers0.length - 1) }
  ⟨h5, peers⟩

/-- Model of `Device::from_handle`: read the name up to its null terminator,
the private key under its flag, the listen port (0 reads as unset), then walk
the peer list to completion in forward order. -/
def Device.from_handle (dh : DeviceHandle) : Except String Device :=
  let name := dh.h.name.takeWhile (fun b => b != 0)
  let private_key :=
    if dh.h.flags &&& WGDEVICE_HAS_PRIVATE_KEY ≠ 0 then
      some (Key.from_bytes dh.h.private_key)
    else none
  let listen_port :=
    if dh.h.listen_port > 0 then some dh.h.listen_port else none
  match decodeChain Peer.from_handle (fun ph => ph.handle.next_peer)
      dh.peers dh.h.first_peer dh.peers.length with
  | .error e => .error e
  | .ok peers => .ok ⟨name, private_key, listen_port, peers⟩

/-- Model of the name-list parse in `Device::all`: walk the packed
null-separated, double-null-terminated buffer returned by
`wg_list_device_names`, collecting each name (the bytes before a null) and
advancing past its terminator until the terminating empty string. -/
def parseNames : List Nat → List (List Nat)
  | [] => []
  | b :: rest =>
    if b = 0 then []
    else
      (b :: rest.takeWhile (fun x => x != 0)) ::
        parseNames ((rest.dropWhile (fun x => x != 0)).drop 1)
termination_by l => l.length
decreasing_by
  have h1 : (rest.dropWhile (fun x => x != 0)).length ≤ rest.length :=
    (List.dropWhile_sublist (fun x => x != 0)).length_le
  simp only [List.length_drop, List.length_cons]
  omega

/-- The open loop of `Device::all`: open each name in order, returning the
first failure immediately (`?` operator), with no partial results. `openf`
stands in for `Device::open`, whose body is one external `wg_get_device`
call followed by `Device::from_handle`. -/
def openAll (openf : List Nat → Except Nat Device) :
    List (List Nat) → Except Nat (List Device)
  | [] => .ok []
  | n :: rest =>
    match openf n with
    | .error e => .error e
    | .ok d =>
      match openAll openf rest with
      | .error e => .error e
      | .ok ds => .ok (d :: ds)

/-- Model of `Device::all`: parse the packed name buffer, then open each name
in order. -/
def Device.all (openf : List Nat → Except Nat Device) (buf : List Nat) :
    Except Nat (List Device) :=
  openAll openf (parseNames buf)

/-! Helper lemmas. -/

lemma takeWhile_append_replicate_zero (l : List Nat) (m : Nat)
    (h : ∀ b ∈ l, b ≠ 0) :
    (l ++ List.replicate m 0).takeWhile (fun b => b != 0) = l := by
  induction l with
  | nil =>
    cases m with
    | zero => simp
    | succ m => simp [List.replicate_succ, List.takeWhile]
  | cons a t ih =>
    have ha : a ≠ 0 := h a (by simp)
    simp only [List.cons_append, List.takeWhile_cons]
    simp only [bne_iff_ne, ne_eq, ha, not_false_eq_true, if_true]
    rw [ih (fun b hb => h b (by simp [hb]))]

lemma sockaddr_to_endpoint_zeroed : sockaddr_to_endpoint Sockaddr.zeroed = .ok none := by
  decide

lemma endpoint_roundtrip_v4 (a b c d p : Nat) (s : Sockaddr) :
    sockaddr_to_endpoint (endpoint_to_sockaddr (.v4 a b c d, p) s) =
      .ok (some (.v4 a b c d, p)) := by
  simp [endpoint_to_sockaddr, sockaddr_to_endpoint, write_ip4_to_in_addr,
    AF_INET, AF_INET6, List.getD]

lemma allowedip_handle_next (ip : AllowedIp) :
    (AllowedIp.handle ip).next_allowedip = none := by
  cases hip : ip.address <;> simp [AllowedIp.handle, wg_allowedip.zeroed, hip]

lemma allowedip_from_handle_withNext (h : wg_allowedip) (x : Option Nat) :
    AllowedIp.from_handle (h.withNext x) = AllowedIp.from_handle h := rfl

lemma allowedip_roundtrip (ip : AllowedIp) (h : ip.address.isV4 = true) :
    AllowedIp.from_handle (AllowedIp.handle ip) = .ok ip := by
  obtain ⟨addr, mask⟩ := ip
  cases addr with
  | v4 a b c d =>
    simp [AllowedIp.handle, AllowedIp.from_handle, wg_allowedip.zeroed,
      write_ip4_to_in_addr, AF_INET, AF_INET6, List.getD]
  | v6 s0 s1 s2 s3 s4 s5 s6 s7 => simp [IpAddr.isV4] at h

/-- Claim C2: for all IPv4 and IPv6 addresses and ports, encode-then-decode
through the sockaddr codec reproduces the endpoint exactly. The code violates
this for IPv6: `read_ip6_from_in6_addr` reads the big-endian `in6_addr` bytes
as native little-endian u16 segments, so every segment comes back
byte-swapped; the endpoint 1::, port 7 decodes as 100::, port 7. -/
theorem endpoint_codec_v6_swap :
    sockaddr_to_endpoint
        (endpoint_to_sockaddr (IpAddr.v6 1 0 0 0 0 0 0 0, 7) Sockaddr.zeroed) =
      .ok (some (IpAddr.v6 256 0 0 0 0 0 0 0, 7))
  ∧ sockaddr_to_endpoint
        (endpoint_to_sockaddr (IpAddr.v6 1 0 0 0 0 0 0 0, 7) Sockaddr.zeroed) ≠
      .ok (some (IpAddr.v6 1 0 0 0 0 0 0 0, 7)) := by
  decide

/-- Claim C3: the claim says the v4 encode writes exactly the 4 source octets
into the 4-byte address field, with no out-of-bounds read or write. The code
calls `ptr::copy_nonoverlapping` with `*const u32` pointers and count 4,
copying 16 bytes: for address 1.2.3.4 over zeroed destination memory, with
byte value 77 sitting after the 4-octet source array, the octets do land at
offsets 0..3, but offsets 4..15 (past the 4-byte `s_addr` field) are
overwritten with bytes read past the source. -/
theorem write_ip4_oob_copy :
    (write_ip4_to_in_addr_mem 1 2 3 4 (fun _ => 77) (fun _ => 0)) 0 = 1
  ∧ (write_ip4_to_in_addr_mem 1 2 3 4 (fun _ => 77) (fun _ => 0)) 1 = 2
  ∧ (write_ip4_to_in_addr_mem 1 2 3 4 (fun _ => 77) (fun _ => 0)) 2 = 3
  ∧ (write_ip4_to_in_addr_mem 1 2 3 4 (fun _ => 77) (fun _ => 0)) 3 = 4
  ∧ (write_ip4_to_in_addr_mem 1 2 3 4 (fun _ => 77) (fun _ => 0)) 4 = 77
  ∧ (write_ip4_to_in_addr_mem 1 2 3 4 (fun _ => 77) (fun _ => 0)) 15 = 77
  ∧ (write_ip4_to_in_addr_mem 1 2 3 4 (fun _ => 77) (fun _ => 0)) 16 = 0 := by
  decide

/-- Claim C6: decoding a foreign sockaddr or allowed-IP record whose family
discriminator is neither IPv4, IPv6, nor unset/zero panics (modelled as
`Except.error`) instead of returning a value, for every such discriminator. -/
theorem unknown_family_panics : ∀ (sa : Sockaddr) (h : wg_allowedip),
    (sa.sa_family ≠ 0 → sa.sa_family ≠ AF_INET → sa.sa_family ≠ AF_INET6 →
      ∃ msg, sockaddr_to_endpoint sa = .error msg)
  ∧ (h.family ≠ 0 → h.family ≠ AF_INET → h.family ≠ AF_INET6 →
      ∃ msg, AllowedIp.from_handle h = .error msg) := by
  intro sa h
  constructor
  · intro h0 h4 h6
    refine ⟨"Unknown AF address family", ?_⟩
    unfold sockaddr_to_endpoint
    rw [if_neg h4, if_neg h6, if_neg h0]
  · intro h0 h4 h6
    refine ⟨"Got an invalid AF address family", ?_⟩
    unfold AllowedIp.from_handle
    rw [if_neg h4, if_neg h6]

/-- Witness for C6 at family tag 7 on concrete zero-filled records. -/
theorem unknown_family_panics_witness :
    (∃ msg, sockaddr_to_endpoint
      ⟨7, 0, List.replicate 4 0, List.replicate 16 0⟩ = .error msg)
  ∧ (∃ msg, AllowedIp.from_handle
      ⟨7, List.replicate 4 0, List.replicate 16 0, 0, none⟩ = .error msg) :=
  ⟨(unknown_family_panics ⟨7, 0, List.replicate 4 0, List.replicate 16 0⟩
      ⟨7, List.replicate 4 0, List.replicate 16 0, 0, none⟩).1
    (by decide) (by decide) (by decide),
   (unknown_family_panics ⟨7, 0, List.replicate 4 0, List.replicate 16 0⟩
      ⟨7, List.replicate 4 0, List.replicate 16 0, 0, none⟩).2
    (by decide) (by decide) (by decide)⟩

/-- Claim C7: `Key::from_slice` fails with InvalidLength exactly when the
input length is not 32 and otherwise returns the key with those bytes;
`Key::from_base64` fails with InvalidBase64 when decoding fails, with
InvalidLength when the decoded length is not 32, and otherwise succeeds;
all failures are typed result values. -/
theorem key_error_modes : ∀ (l : List Nat) (s : List Char),
    (l.length ≠ 32 → Key.from_slice l = .error .InvalidLength)
  ∧ (l.length = 32 → Key.from_slice l = .ok ⟨l⟩)
  ∧ (b64Decode s = none → Key.from_base64 s = .error .InvalidBase64)
  ∧ (∀ v, b64Decode s = some v → v.length ≠ 32 →
      Key.from_base64 s = .error .InvalidLength)
  ∧ (∀ v, b64Decode s = some v → v.length = 32 →
      Key.from_base64 s = .ok ⟨v⟩) := by
  intro l s
  refine ⟨?_, ?_, ?_, ?_, ?_⟩
  · intro h; simp [Key.from_slice, KEY_SIZE, h]
  · intro h; simp [Key.from_slice, KEY_SIZE, h]
  · intro h; simp [Key.from_base64, h]
  · intro v hv h; simp [Key.from_base64, hv, KEY_SIZE, h]
  · intro v hv h; simp [Key.from_base64, hv, KEY_SIZE, h]

/-- Witness for C7: a short slice, a non-Base64 text, a Base64 text of the
wrong decoded length, and a valid 32-byte decode. -/
theorem key_error_modes_witness :
    Key.from_slice [1, 2, 3] = .error .InvalidLength
  ∧ Key.from_slice (List.replicate 32 9) = .ok ⟨List.replicate 32 9⟩
  ∧ Key.from_base64 ['!'] = .error .InvalidBase64
  ∧ Key.from_base64 ['A', 'A', 'A', 'A'] = .error .InvalidLength
  ∧ Key.from_base64 (b64Encode (List.replicate 32 0)) =
      .ok ⟨List.replicate 32 0⟩ :=
  ⟨(key_error_modes [1, 2, 3] []).1 (by decide),
   (key_error_modes (List.replicate 32 9) []).2.1 (by decide),
   (key_error_modes [] ['!']).2.2.1 (by decide),
   (key_error_modes [] ['A', 'A', 'A', 'A']).2.2.2.1 [0, 0, 0] (by decide)
     (by decide),
   (key_error_modes [] (b64Encode (List.replicate 32 0))).2.2.2.2
     (List.replicate 32 0) (by decide) (by decide)⟩

lemma device_handle_flags_eq (dp : Key → Key) (d : Device) :
    (Device.handle dp d).h.flags =
      ((if d.private_key.isSome then WGDEVICE_HAS_PRIVATE_KEY else 0) |||
        (if d.listen_port.isSome then WGDEVICE_HAS_LISTEN_PORT else 0)) |||
          WGDEVICE_REPLACE_PEERS := by
  obtain ⟨nm, pk, lp, ps⟩ := d
  cases pk <;> cases lp <;>
    cases hE : (ps.map Peer.handle).isEmpty <;>
      simp [Device.handle, wg_device.zeroed, hE, Nat.zero_or]

lemma device_handle_listen_port_eq (dp : Key → Key) (d : Device) :
    (Device.handle dp d).h.listen_port = d.listen_port.getD 0 := by
  obtain ⟨nm, pk, lp, ps⟩ := d
  cases pk <;> cases lp <;>
    cases hE : (ps.map Peer.handle).isEmpty <;>
      simp [Device.handle, wg_device.zeroed, hE]

lemma device_from_handle_ok_parts (dh : DeviceHandle) (d' : Device)
    (h : Device.from_handle dh = .ok d') :
    d'.name = dh.h.name.takeWhile (fun b => b != 0)
  ∧ d'.private_key = (if dh.h.flags &&& WGDEVICE_HAS_PRIVATE_KEY ≠ 0 then
      some (Key.from_bytes dh.h.private_key) else none)
  ∧ d'.listen_port = (if dh.h.listen_port > 0 then some dh.h.listen_port
      else none) := by
  unfold Device.from_handle at h
  cases hD : decodeChain Peer.from_handle (fun ph => ph.handle.next_peer)
      dh.peers dh.h.first_peer dh.peers.length with
  | error e => rw [hD] at h; simp at h
  | ok peers =>
    rw [hD] at h
    simp only [Except.ok.injEq] at h
    subst h
    exact ⟨rfl, rfl, rfl⟩

lemma openAll_first_error (openf : List Nat → Except Nat Device)
    (l1 : List (List Nat)) (n : List Nat) (l2 : List (List Nat)) (e : Nat)
    (h1 : ∀ m ∈ l1, ∃ d, openf m = .ok d) (h2 : openf n = .error e) :
    openAll openf (l1 ++ n :: l2) = .error e := by
  induction l1 with
  | nil => simp [openAll, h2]
  | cons m t ih =>
    obtain ⟨d, hd⟩ := h1 m (by simp)
    have ht := ih (fun x hx => h1 x (by simp [hx]))
    simp only [List.cons_append, openAll, List.append_eq, hd, ht]

lemma openAll_ok (openf : List Nat → Except Nat Device) :
    ∀ (names : List (List Nat)) (ds : List Device),
      openAll openf names = .ok ds →
      List.Forall₂ (fun m d => openf m = .ok d) names ds := by
  intro names
  induction names with
  | nil =>
    intro ds h
    simp only [openAll, Except.ok.injEq] at h
    subst h
    exact .nil
  | cons m t ih =>
    intro ds h
    simp only [openAll] at h
    cases hm : openf m with
    | error e => rw [hm] at h; simp at h
    | ok d =>
      rw [hm] at h
      cases ht : openAll openf t with
      | error e => rw [ht] at h; simp at h
      | ok ds' =>
        rw [ht] at h
        simp only [Except.ok.injEq] at h
        subst h
        exact .cons hm (ih ds' ht)

/-- Claim C9: `Device::all` enumerates the packed null-separated name list and
opens each named device in order; the first failing open is returned as the
overall error, with no partial results; a successful result pairs each parsed
name with its opened device in order. -/
theorem device_all_first_error :
    (∀ (openf : List Nat → Except Nat Device) (buf : List Nat)
        (l1 : List (List Nat)) (n : List Nat) (l2 : List (List Nat)) (e : Nat),
      parseNames buf = l1 ++ n :: l2 →
      (∀ m ∈ l1, ∃ d, openf m = .ok d) →
      openf n = .error e →
      Device.all openf buf = .error e)
  ∧ (∀ (openf : List Nat → Except Nat Device) (buf : List Nat)
        (ds : List Device),
      Device.all openf buf = .ok ds →
      List.Forall₂ (fun m d => openf m = .ok d) (parseNames buf) ds) := by
  constructor
  · intro openf buf l1 n l2 e hp h1 h2
    unfold Device.all
    rw [hp]
    exact openAll_first_error openf l1 n l2 e h1 h2
  · intro openf buf ds h
    exact openAll_ok openf (parseNames buf) ds h

/-- Witness for C9: the packed buffer "a\x00b\x00\x00"; opening "a" succeeds
and opening "b" fails with error 5, so `all` returns error 5. -/
theorem device_all_first_error_witness :
    Device.all
      (fun m => if m = [97] then .ok ⟨[], none, none, []⟩ else .error 5)
      [97, 0, 98, 0, 0] = .error 5 :=
  device_all_first_error.1
    (fun m => if m = [97] then .ok ⟨[], none, none, []⟩ else .error 5)
    [97, 0, 98, 0, 0] [[97]] [98] [] 5
    (by simp [parseNames])
    (by intro m hm
        simp only [List.mem_singleton] at hm
        subst hm
        exact ⟨⟨[], none, none, []⟩, rfl⟩)
    (by decide)

/-- Claim C10: a listen port of Some 0 encodes with the has-listen-port flag
set and port value 0, yet any foreign record with listen-port field 0 decodes
to listen port None, so Some 0 never survives an encode-then-decode round
trip. -/
theorem listen_port_zero_asymmetry :
    (∀ (dp : Key → Key) (d : Device), d.listen_port = some 0 →
      (Device.handle dp d).h.flags &&& WGDEVICE_HAS_LISTEN_PORT ≠ 0 ∧
        (Device.handle dp d).h.listen_port = 0)
  ∧ (∀ (dh : DeviceHandle) (d' : Device), dh.h.listen_port = 0 →
      Device.from_handle dh = .ok d' → d'.listen_port = none)
  ∧ (∀ (dp : Key → Key) (d : Device) (d' : Device), d.listen_port = some 0 →
      Device.from_handle (Device.handle dp d) = .ok d' →
        d'.listen_port ≠ some 0) := by
  have part1 : ∀ (dp : Key → Key) (d : Device), d.listen_port = some 0 →
      (Device.handle dp d).h.flags &&& WGDEVICE_HAS_LISTEN_PORT ≠ 0 ∧
        (Device.handle dp d).h.listen_port = 0 := by
    intro dp d hlp
    constructor
    · rw [device_handle_flags_eq]
      simp only [hlp, Option.isSome_some, if_true]
      cases hpk : d.private_key.isSome <;> simp [hpk] <;> decide
    · rw [device_handle_listen_port_eq, hlp]
      rfl
  have part2 : ∀ (dh : DeviceHandle) (d' : Device), dh.h.listen_port = 0 →
      Device.from_handle dh = .ok d' → d'.listen_port = none := by
    intro dh d' h0 hok
    obtain ⟨-, -, hlp⟩ := device_from_handle_ok_parts dh d' hok
    rw [hlp, h0]
    simp
  refine ⟨part1, part2, ?_⟩
  intro dp d d' hlp hok
  have h0 := (part1 dp d hlp).2
  rw [part2 (Device.handle dp d) d' h0 hok]
  simp

/-- Witness for C10 on the concrete device named "w" with listen port
Some 0 and no peers: the encoded record carries the flag and port 0, and the
round trip comes back with listen port unset. -/
theorem listen_port_zero_asymmetry_witness :
    ((Device.handle (fun k => k) ⟨[119], none, some 0, []⟩).h.flags &&&
        WGDEVICE_HAS_LISTEN_PORT ≠ 0 ∧
      (Device.handle (fun k => k) ⟨[119], none, some 0, []⟩).h.listen_port = 0)
  ∧ (⟨[119], none, none, []⟩ : Device).listen_port ≠ some 0 :=
  ⟨listen_port_zero_asymmetry.1 (fun k => k) ⟨[119], none, some 0, []⟩ rfl,
   listen_port_zero_asymmetry.2.2 (fun k => k) ⟨[119], none, some 0, []⟩
     ⟨[119], none, none, []⟩ rfl (by decide)⟩

lemma charToSextet_sextetToChar : ∀ s, s < 64 →
    charToSextet (sextetToChar s) = some s := by
  decide

lemma sextetToChar_ne_pad : ∀ s, s < 64 → sextetToChar s ≠ '=' := by
  decide

lemma b64_roundtrip : ∀ l : List Nat, (∀ b ∈ l, b < 256) →
    b64Decode (b64Encode l) = some l := by
  intro l
  induction l using b64Encode.induct with
  | case1 b0 b1 b2 rest ih =>
    intro hb
    have hb0 : b0 < 256 := hb b0 (by simp)
    have hb1 : b1 < 256 := hb b1 (by simp)
    have hb2 : b2 < 256 := hb b2 (by simp)
    have hs0 : b0 / 4 < 64 := by omega
    have hs1 : b0 % 4 * 16 + b1 / 16 < 64 := by omega
    have hs2 : b1 % 16 * 4 + b2 / 64 < 64 := by omega
    have hs3 : b2 % 64 < 64 := by omega
    have hrest := ih (fun b hbm => hb b (by simp [hbm]))
    simp only [b64Encode, b64Decode,
      charToSextet_sextetToChar _ hs0, charToSextet_sextetToChar _ hs1,
      charToSextet_sextetToChar _ hs2, charToSextet_sextetToChar _ hs3,
      if_neg (sextetToChar_ne_pad _ hs2), if_neg (sextetToChar_ne_pad _ hs3),
      hrest, Option.map_some]
    refine congrArg some ?_
    have e0 : b0 / 4 * 4 + (b0 % 4 * 16 + b1 / 16) / 16 = b0 := by omega
    have e1 : (b0 % 4 * 16 + b1 / 16) % 16 * 16 +
        (b1 % 16 * 4 + b2 / 64) / 4 = b1 := by omega
    have e2 : (b1 % 16 * 4 + b2 / 64) % 4 * 64 + b2 % 64 = b2 := by omega
    rw [e0, e1, e2]
  | case2 b0 b1 =>
    intro hb
    have hb0 : b0 < 256 := hb b0 (by simp)
    have hb1 : b1 < 256 := hb b1 (by simp)
    have hs0 : b0 / 4 < 64 := by omega
    have hs1 : b0 % 4 * 16 + b1 / 16 < 64 := by omega
    have hs2 : b1 % 16 * 4 < 64 := by omega
    simp only [b64Encode, b64Decode,
      charToSextet_sextetToChar _ hs0, charToSextet_sextetToChar _ hs1,
      charToSextet_sextetToChar _ hs2,
      if_neg (sextetToChar_ne_pad _ hs2), if_pos rfl]
    refine congrArg some ?_
    have e0 : b0 / 4 * 4 + (b0 % 4 * 16 + b1 / 16) / 16 = b0 := by omega
    have e1 : (b0 % 4 * 16 + b1 / 16) % 16 * 16 + b1 % 16 * 4 / 4 = b1 := by
      omega
    rw [e0, e1]
  | case3 b0 =>
    intro hb
    have hb0 : b0 < 256 := hb b0 (by simp)
    have hs0 : b0 / 4 < 64 := by omega
    have hs1 : b0 % 4 * 16 < 64 := by omega
    simp only [b64Encode, b64Decode,
      charToSextet_sextetToChar _ hs0, charToSextet_sextetToChar _ hs1,
      if_pos rfl]
    refine congrArg some ?_
    have e0 : b0 / 4 * 4 + b0 % 4 * 16 / 16 = b0 := by omega
    rw [e0]
  | case4 =>
    intro _
    rfl

/-- Claim C8: for every 32-byte array, decoding the Base64 rendering of the
key built from those bytes succeeds and returns a key with the same raw
bytes. -/
theorem key_base64_roundtrip : ∀ l : List Nat, l.length = 32 →
    (∀ b ∈ l, b < 256) →
    Key.from_base64 (Key.to_base64 (Key.from_bytes l)) =
      .ok (Key.from_bytes l) := by
  intro l hlen hb
  unfold Key.to_base64 Key.from_base64 Key.from_bytes
  rw [b64_roundtrip l hb]
  simp [hlen, KEY_SIZE]

/-- Witness for C8 at the all-zero 32-byte array. -/
theorem key_base64_roundtrip_witness :
    Key.from_base64 (Key.to_base64 (Key.from_bytes (List.replicate 32 0))) =
      .ok (Key.from_bytes (List.replicate 32 0)) :=
  key_base64_roundtrip (List.replicate 32 0) (by decide) (by decide)

lemma mem_of_getElem_opt {α : Type} {l : List α} {i : Nat} {a : α}
    (h : l[i]? = some a) : a ∈ l :=
  List.mem_iff_getElem?.mpr ⟨i, h⟩

lemma linkIps_length (l : List wg_allowedip) : (linkIps l).length = l.length := by
  simp [linkIps, List.enum_length]

lemma linkIps_getElem? (l : List wg_allowedip) (i : Nat) :
    (linkIps l)[i]? = (l[i]?).map
      (fun x => if i + 1 < l.length then x.withNext (some (i + 1)) else x) := by
  cases h : l[i]? with
  | none => rw [linkIps, List.getElem?_map, List.getElem?_enum, h]; rfl
  | some x => rw [linkIps, List.getElem?_map, List.getElem?_enum, h]; rfl

lemma linkIps_next (l : List wg_allowedip)
    (hnone : ∀ x ∈ l, x.next_allowedip = none) (i : Nat) (a : wg_allowedip)
    (ha : (linkIps l)[i]? = some a) :
    a.next_allowedip =
      if i + 1 < (linkIps l).length then some (i + 1) else none := by
  rw [linkIps_getElem?] at ha
  rw [linkIps_length]
  cases hx : l[i]? with
  | none => rw [hx] at ha; exact Option.noConfusion ha
  | some x =>
    rw [hx] at ha
    have ha2 : (if i + 1 < l.length then x.withNext (some (i + 1)) else x) = a :=
      Option.some.inj ha
    subst ha2
    by_cases hc : i + 1 < l.length
    · rw [if_pos hc, if_pos hc]; rfl
    · rw [if_neg hc, if_neg hc]
      exact hnone x (mem_of_getElem_opt hx)

lemma linkPeers_length (l : List PeerHandle) : (linkPeers l).length = l.length := by
  simp [linkPeers, List.enum_length]

lemma linkPeers_getElem? (l : List PeerHandle) (i : Nat) :
    (linkPeers l)[i]? = (l[i]?).map
      (fun x => if i + 1 < l.length then x.withNext (some (i + 1))
        else x.withNext none) := by
  cases h : l[i]? with
  | none => rw [linkPeers, List.getElem?_map, List.getElem?_enum, h]; rfl
  | some x => rw [linkPeers, List.getElem?_map, List.getElem?_enum, h]; rfl

lemma linkPeers_next (l : List PeerHandle) (i : Nat) (a : PeerHandle)
    (ha : (linkPeers l)[i]? = some a) :
    a.handle.next_peer =
      if i + 1 < (linkPeers l).length then some (i + 1) else none := by
  rw [linkPeers_getElem?] at ha
  rw [linkPeers_length]
  cases hx : l[i]? with
  | none => rw [hx] at ha; exact Option.noConfusion ha
  | some x =>
    rw [hx] at ha
    have ha2 : (if i + 1 < l.length then x.withNext (some (i + 1))
        else x.withNext none) = a :=
      Option.some.inj ha
    subst ha2
    by_cases hc : i + 1 < l.length
    · rw [if_pos hc, if_pos hc]; rfl
    · rw [if_neg hc, if_neg hc]; rfl

lemma decodeChain_seq {α β : Type} (dec : α → Except String β)
    (g : α → Option Nat) (arena : List α) (bs : List β)
    (hlen : bs.length = arena.length)
    (hlink : ∀ (i : Nat) (a : α), arena[i]? = some a →
      g a = if i + 1 < arena.length then some (i + 1) else none)
    (hdec : ∀ (i : Nat) (a : α) (b : β), arena[i]? = some a →
      bs[i]? = some b → dec a = Except.ok b) :
    ∀ (fuel i : Nat), arena.length - i ≤ fuel → i < arena.length →
      decodeChain dec g arena (some i) fuel = Except.ok (bs.drop i) := by
  intro fuel
  induction fuel with
  | zero => intro i hf hi; omega
  | succ fuel ih =>
    intro i hf hi
    have hib : i < bs.length := by omega
    have ha : arena[i]? = some arena[i] := List.getElem?_eq_getElem hi
    have hb : bs[i]? = some bs[i] := List.getElem?_eq_getElem hib
    have hdec' := hdec i _ _ ha hb
    have hg := hlink i _ ha
    by_cases hc : i + 1 < arena.length
    · have hg' : g arena[i] = some (i + 1) := by rw [hg]; exact if_pos hc
      have hrec := ih (i + 1) (by omega) hc
      simp only [decodeChain, ha, hdec', hg', hrec]
      rw [List.drop_eq_getElem_cons hib]
    · have hg' : g arena[i] = none := by rw [hg]; exact if_neg hc
      simp only [decodeChain, ha, hdec', hg']
      have hdrop : List.drop (i + 1) bs = [] :=
        List.drop_eq_nil_of_le (by omega)
      rw [List.drop_eq_getElem_cons hib, hdrop]

lemma walkChain_seq {α : Type} (g : α → Option Nat) (arena : List α)
    (hlink : ∀ (i : Nat) (a : α), arena[i]? = some a →
      g a = if i + 1 < arena.length then some (i + 1) else none) :
    ∀ (fuel i : Nat), arena.length - i ≤ fuel → i < arena.length →
      walkChain g arena (some i) fuel = some (arena.drop i) := by
  intro fuel
  induction fuel with
  | zero => intro i hf hi; omega
  | succ fuel ih =>
    intro i hf hi
    have ha : arena[i]? = some arena[i] := List.getElem?_eq_getElem hi
    have hg := hlink i _ ha
    by_cases hc : i + 1 < arena.length
    · have hg' : g arena[i] = some (i + 1) := by rw [hg]; exact if_pos hc
      have hrec := ih (i + 1) (by omega) hc
      simp only [walkChain, ha, hg', hrec]
      rw [List.drop_eq_getElem_cons hi]
    · have hg' : g arena[i] = none := by rw [hg]; exact if_neg hc
      simp only [walkChain, ha, hg']
      have hdrop : List.drop (i + 1) arena = [] :=
        List.drop_eq_nil_of_le (by omega)
      rw [List.drop_eq_getElem_cons hi, hdrop]

lemma peer_handle_arena (p : Peer) :
    (Peer.handle p).allowed_ips = linkIps (p.allowed_ips.map AllowedIp.handle) :=
  rfl

lemma peer_handle_first (p : Peer) :
    (Peer.handle p).handle.first_allowedip =
      if p.allowed_ips.isEmpty then none else some 0 := by
  cases hE : p.allowed_ips.isEmpty <;> simp [Peer.handle, hE]

lemma peer_handle_last (p : Peer) :
    (Peer.handle p).handle.last_allowedip =
      if p.allowed_ips.isEmpty then none
      else some (p.allowed_ips.length - 1) := by
  cases hE : p.allowed_ips.isEmpty <;> simp [Peer.handle, hE]

lemma peer_handle_flags_eq (p : Peer) :
    (Peer.handle p).handle.flags =
      (if p.public_key.isSome then WGPEER_HAS_PUBLIC_KEY else 0) |||
        WGPEER_REPLACE_ALLOWEDIPS := by
  obtain ⟨pk, ep, ips⟩ := p
  cases pk <;> cases ep <;> cases hE : ips.isEmpty <;>
    simp [Peer.handle, wg_peer.zeroed, hE, Nat.zero_or]

lemma peer_handle_public_key_eq (p : Peer) :
    (Peer.handle p).handle.public_key =
      match p.public_key with
      | some k => k.bytes
      | none => List.replicate 32 0 := by
  obtain ⟨pk, ep, ips⟩ := p
  cases pk <;> cases ep <;> cases hE : ips.isEmpty <;>
    simp [Peer.handle, wg_peer.zeroed, hE]

lemma peer_handle_endpoint_eq (p : Peer) :
    (Peer.handle p).handle.endpoint =
      match p.endpoint with
      | some e => endpoint_to_sockaddr e Sockaddr.zeroed
      | none => Sockaddr.zeroed := by
  obtain ⟨pk, ep, ips⟩ := p
  cases pk <;> cases ep <;> cases hE : ips.isEmpty <;>
    simp [Peer.handle, wg_peer.zeroed, hE]

lemma handle_map_next_none (ips : List AllowedIp) :
    ∀ x ∈ ips.map AllowedIp.handle, x.next_allowedip = none := by
  intro x hx
  obtain ⟨ip, -, rfl⟩ := List.mem_map.mp hx
  exact allowedip_handle_next ip

lemma linkIps_decode (ips : List AllowedIp)
    (hi : ips.all (fun ip => ip.address.isV4) = true)
    (i : Nat) (a : wg_allowedip) (b : AllowedIp)
    (ha : (linkIps (ips.map AllowedIp.handle))[i]? = some a)
    (hb : ips[i]? = some b) :
    AllowedIp.from_handle a = .ok b := by
  rw [linkIps_getElem?, List.getElem?_map, hb] at ha
  have hbv4 : b.address.isV4 = true :=
    List.all_eq_true.mp hi b (mem_of_getElem_opt hb)
  have ha2 : (if i + 1 < (ips.map AllowedIp.handle).length then
      (AllowedIp.handle b).withNext (some (i + 1))
      else AllowedIp.handle b) = a :=
    Option.some.inj ha
  subst ha2
  by_cases hc : i + 1 < (ips.map AllowedIp.handle).length
  · rw [if_pos hc, allowedip_from_handle_withNext]
    exact allowedip_roundtrip b hbv4
  · rw [if_neg hc]
    exact allowedip_roundtrip b hbv4

lemma peer_ips_decode (ips : List AllowedIp)
    (hi : ips.all (fun ip => ip.address.isV4) = true) :
    decodeChain AllowedIp.from_handle (fun a => a.next_allowedip)
      (linkIps (ips.map AllowedIp.handle))
      (if ips.isEmpty then none else some 0)
      (linkIps (ips.map AllowedIp.handle)).length = .ok ips := by
  cases hE : ips.isEmpty with
  | true =>
    have : ips = [] := List.isEmpty_iff.mp hE
    subst this
    rfl
  | false =>
    have hne : ips ≠ [] := by
      intro h
      subst h
      simp at hE
    have hlen0 : 0 < ips.length := List.length_pos.mpr hne
    have harena : (linkIps (ips.map AllowedIp.handle)).length = ips.length := by
      rw [linkIps_length, List.length_map]
    rw [if_neg (by simp [hE])]
    have := decodeChain_seq AllowedIp.from_handle (fun a => a.next_allowedip)
      (linkIps (ips.map AllowedIp.handle)) ips
      (by rw [harena])
      (fun i a ha => linkIps_next (ips.map AllowedIp.handle)
        (handle_map_next_none ips) i a ha)
      (fun i a b ha hb => linkIps_decode ips hi i a b ha hb)
      (linkIps (ips.map AllowedIp.handle)).length 0
      (by omega) (by rw [harena]; exact hlen0)
    rw [this, List.drop_zero]

lemma peer_from_handle_withNext (ph : PeerHandle) (x : Option Nat) :
    Peer.from_handle (ph.withNext x) = Peer.from_handle ph := rfl

lemma peer_roundtrip (p : Peer)
    (he : p.endpoint.all (fun e => e.1.isV4) = true)
    (hi : p.allowed_ips.all (fun ip => ip.address.isV4) = true) :
    Peer.from_handle (Peer.handle p) = .ok p := by
  have hep : sockaddr_to_endpoint (Peer.handle p).handle.endpoint =
      .ok p.endpoint := by
    rw [peer_handle_endpoint_eq]
    cases hk : p.endpoint with
    | none => exact sockaddr_to_endpoint_zeroed
    | some e =>
      obtain ⟨addr, port⟩ := e
      cases addr with
      | v4 a b c d => exact endpoint_roundtrip_v4 a b c d port Sockaddr.zeroed
      | v6 s0 s1 s2 s3 s4 s5 s6 s7 =>
        rw [hk] at he
        simp [IpAddr.isV4] at he
  have hips : decodeChain AllowedIp.from_handle (fun a => a.next_allowedip)
      (Peer.handle p).allowed_ips (Peer.handle p).handle.first_allowedip
      (Peer.handle p).allowed_ips.length = .ok p.allowed_ips := by
    rw [peer_handle_arena, peer_handle_first]
    exact peer_ips_decode p.allowed_ips hi
  have hpk : (if (Peer.handle p).handle.flags &&& WGPEER_HAS_PUBLIC_KEY ≠ 0
      then some (Key.from_bytes (Peer.handle p).handle.public_key)
      else none) = p.public_key := by
    rw [peer_handle_flags_eq, peer_handle_public_key_eq]
    cases hk : p.public_key with
    | none =>
      simp [hk, WGPEER_HAS_PUBLIC_KEY, WGPEER_REPLACE_ALLOWEDIPS]
      decide
    | some k =>
      simp only [hk, Option.isSome_some, if_true]
      rw [if_pos (by decide)]
      rfl
  simp only [Peer.from_handle, hep, hips, hpk]

/-- Claim C4: encoding a peer with K allowed IPs (K at least 1) produces a
contiguous buffer of K foreign records whose forward traversal from the
peer record's first pointer visits exactly the K buffer records, which are
the encodings of the allowed IPs in insertion order; the last node's next
pointer is null and the first/last pointers address the first and last
buffer slots; for an empty list the pointers are null and no buffer is
built. -/
theorem peer_handle_linkage : ∀ p : Peer,
    ((Peer.handle p).allowed_ips.map (fun a => a.withNext none) =
      p.allowed_ips.map (fun ip => (AllowedIp.handle ip).withNext none))
  ∧ (p.allowed_ips = [] →
      (Peer.handle p).allowed_ips = [] ∧
      (Peer.handle p).handle.first_allowedip = none ∧
      (Peer.handle p).handle.last_allowedip = none)
  ∧ (p.allowed_ips ≠ [] →
      (Peer.handle p).handle.first_allowedip = some 0 ∧
      (Peer.handle p).handle.last_allowedip =
        some (p.allowed_ips.length - 1) ∧
      (Peer.handle p).allowed_ips.length = p.allowed_ips.length ∧
      walkChain (fun a => a.next_allowedip) (Peer.handle p).allowed_ips
          (Peer.handle p).handle.first_allowedip
          (Peer.handle p).allowed_ips.length =
        some ((Peer.handle p).allowed_ips) ∧
      (∀ a, ((Peer.handle p).allowed_ips).getLast? = some a →
        a.next_allowedip = none)) := by
  intro p
  refine ⟨?_, ?_, ?_⟩
  · rw [peer_handle_arena]
    refine List.ext_getElem? fun i => ?_
    rw [List.getElem?_map, linkIps_getElem?, List.getElem?_map,
      List.getElem?_map]
    cases h : p.allowed_ips[i]? with
    | none => rfl
    | some b =>
      show some ((if i + 1 < (p.allowed_ips.map AllowedIp.handle).length then
          (AllowedIp.handle b).withNext (some (i + 1))
          else AllowedIp.handle b).withNext none) =
        some ((AllowedIp.handle b).withNext none)
      by_cases hc : i + 1 < (p.allowed_ips.map AllowedIp.handle).length
      · rw [if_pos hc]; rfl
      · rw [if_neg hc]
  · intro h
    have hE : p.allowed_ips.isEmpty = true := by rw [h]; rfl
    refine ⟨?_, ?_, ?_⟩
    · rw [peer_handle_arena, h]; rfl
    · rw [peer_handle_first, hE]; rfl
    · rw [peer_handle_last, hE]; rfl
  · intro hne
    have hE : p.allowed_ips.isEmpty = false := by
      cases hE0 : p.allowed_ips.isEmpty
      · rfl
      · exact absurd (List.isEmpty_iff.mp hE0) hne
    have hlen0 : 0 < p.allowed_ips.length := List.length_pos.mpr hne
    have harena : (Peer.handle p).allowed_ips.length = p.allowed_ips.length := by
      rw [peer_handle_arena, linkIps_length, List.length_map]
    refine ⟨?_, ?_, harena, ?_, ?_⟩
    · rw [peer_handle_first, hE]; rfl
    · rw [peer_handle_last, hE]; rfl
    · rw [peer_handle_arena, peer_handle_first, hE, if_neg (by decide)]
      have hw := walkChain_seq (fun a => a.next_allowedip)
        (linkIps (p.allowed_ips.map AllowedIp.handle))
        (fun i a ha => linkIps_next (p.allowed_ips.map AllowedIp.handle)
          (handle_map_next_none p.allowed_ips) i a ha)
        (linkIps (p.allowed_ips.map AllowedIp.handle)).length 0
        (by omega)
        (by rw [linkIps_length, List.length_map]; exact hlen0)
      rw [List.drop_zero] at hw
      exact hw
    · intro a hlast
      rw [peer_handle_arena, List.getLast?_eq_getElem?] at hlast
      have hnext := linkIps_next (p.allowed_ips.map AllowedIp.handle)
        (handle_map_next_none p.allowed_ips) _ a hlast
      rw [hnext, if_neg]
      rw [linkIps_length, List.length_map]
      omega

/-- Witness for C4 at a peer with two IPv4 allowed IPs. -/
theorem peer_handle_linkage_witness :
    (⟨none, none, [⟨.v4 1 2 3 4, 32⟩, ⟨.v4 5 6 7 8, 16⟩]⟩ : Peer).allowed_ips ≠ []
  ∧ ((Peer.handle ⟨none, none, [⟨.v4 1 2 3 4, 32⟩, ⟨.v4 5 6 7 8, 16⟩]⟩).handle.first_allowedip = some 0 ∧
     (Peer.handle ⟨none, none, [⟨.v4 1 2 3 4, 32⟩, ⟨.v4 5 6 7 8, 16⟩]⟩).handle.last_allowedip =
       some ((⟨none, none, [⟨.v4 1 2 3 4, 32⟩, ⟨.v4 5 6 7 8, 16⟩]⟩ : Peer).allowed_ips.length - 1) ∧
     (Peer.handle ⟨none, none, [⟨.v4 1 2 3 4, 32⟩, ⟨.v4 5 6 7 8, 16⟩]⟩).allowed_ips.length =
       (⟨none, none, [⟨.v4 1 2 3 4, 32⟩, ⟨.v4 5 6 7 8, 16⟩]⟩ : Peer).allowed_ips.length ∧
     walkChain (fun a => a.next_allowedip)
         (Peer.handle ⟨none, none, [⟨.v4 1 2 3 4, 32⟩, ⟨.v4 5 6 7 8, 16⟩]⟩).allowed_ips
         (Peer.handle ⟨none, none, [⟨.v4 1 2 3 4, 32⟩, ⟨.v4 5 6 7 8, 16⟩]⟩).handle.first_allowedip
         (Peer.handle ⟨none, none, [⟨.v4 1 2 3 4, 32⟩, ⟨.v4 5 6 7 8, 16⟩]⟩).allowed_ips.length =
       some ((Peer.handle ⟨none, none, [⟨.v4 1 2 3 4, 32⟩, ⟨.v4 5 6 7 8, 16⟩]⟩).allowed_ips) ∧
     (∀ a, ((Peer.handle ⟨none, none, [⟨.v4 1 2 3 4, 32⟩, ⟨.v4 5 6 7 8, 16⟩]⟩).allowed_ips).getLast? = some a →
       a.next_allowedip = none)) :=
  ⟨by decide,
   (peer_handle_linkage ⟨none, none, [⟨.v4 1 2 3 4, 32⟩, ⟨.v4 5 6 7 8, 16⟩]⟩).2.2 (by decide)⟩

lemma device_handle_private_key_eq (dp : Key → Key) (d : Device) :
    (Device.handle dp d).h.private_key =
      match d.private_key with
      | some k => k.bytes
      | none => List.replicate 32 0 := by
  obtain ⟨nm, pk, lp, ps⟩ := d
  cases pk <;> cases lp <;> cases hE : (ps.map Peer.handle).isEmpty <;>
    simp [Device.handle, wg_device.zeroed, hE]

lemma device_handle_public_key_eq (dp : Key → Key) (d : Device) :
    (Device.handle dp d).h.public_key =
      match d.private_key with
      | some k => (dp k).bytes
      | none => List.replicate 32 0 := by
  obtain ⟨nm, pk, lp, ps⟩ := d
  cases pk <;> cases lp <;> cases hE : (ps.map Peer.handle).isEmpty <;>
    simp [Device.handle, wg_device.zeroed, hE]

lemma device_handle_peers_eq (dp : Key → Key) (d : Device) :
    (Device.handle dp d).peers = linkPeers (d.peers.map Peer.handle) := rfl

/-- Claim C5: the record built by `Device::handle` always carries the
replace-all-peers flag; the has-private-key and has-listen-port flags are set
exactly when the corresponding optional field is populated; a set private key
is written together with its derived public key; and every encoded peer
record carries the replace-allowed-ips flag. -/
theorem device_handle_flags : ∀ (dp : Key → Key) (d : Device),
    ((Device.handle dp d).h.flags &&& WGDEVICE_REPLACE_PEERS ≠ 0)
  ∧ (((Device.handle dp d).h.flags &&& WGDEVICE_HAS_PRIVATE_KEY ≠ 0) ↔
      d.private_key.isSome)
  ∧ (((Device.handle dp d).h.flags &&& WGDEVICE_HAS_LISTEN_PORT ≠ 0) ↔
      d.listen_port.isSome)
  ∧ (∀ k, d.private_key = some k →
      (Device.handle dp d).h.private_key = k.bytes ∧
      (Device.handle dp d).h.public_key = (dp k).bytes)
  ∧ (∀ ph ∈ (Device.handle dp d).peers,
      ph.handle.flags &&& WGPEER_REPLACE_ALLOWEDIPS ≠ 0) := by
  intro dp d
  refine ⟨?_, ?_, ?_, ?_, ?_⟩
  · rw [device_handle_flags_eq]
    cases hp : d.private_key.isSome <;> cases hl : d.listen_port.isSome <;>
      simp [WGDEVICE_REPLACE_PEERS, WGDEVICE_HAS_PRIVATE_KEY,
        WGDEVICE_HAS_LISTEN_PORT]
  · rw [device_handle_flags_eq]
    cases hp : d.private_key.isSome <;> cases hl : d.listen_port.isSome <;>
      first
      | (simp [WGDEVICE_REPLACE_PEERS, WGDEVICE_HAS_PRIVATE_KEY,
          WGDEVICE_HAS_LISTEN_PORT]; done)
      | (simp [WGDEVICE_REPLACE_PEERS, WGDEVICE_HAS_PRIVATE_KEY,
          WGDEVICE_HAS_LISTEN_PORT]; decide)
  · rw [device_handle_flags_eq]
    cases hp : d.private_key.isSome <;> cases hl : d.listen_port.isSome <;>
      first
      | (simp [WGDEVICE_REPLACE_PEERS, WGDEVICE_HAS_PRIVATE_KEY,
          WGDEVICE_HAS_LISTEN_PORT]; done)
      | (simp [WGDEVICE_REPLACE_PEERS, WGDEVICE_HAS_PRIVATE_KEY,
          WGDEVICE_HAS_LISTEN_PORT]; decide)
  · intro k hk
    rw [device_handle_private_key_eq, device_handle_public_key_eq, hk]
    exact ⟨rfl, rfl⟩
  · intro ph hm
    rw [device_handle_peers_eq] at hm
    obtain ⟨i, hi⟩ := List.mem_iff_getElem?.mp hm
    rw [linkPeers_getElem?] at hi
    cases hx : (d.peers.map Peer.handle)[i]? with
    | none => rw [hx] at hi; exact Option.noConfusion hi
    | some x =>
      rw [hx] at hi
      have hi2 : (if i + 1 < (d.peers.map Peer.handle).length then
          x.withNext (some (i + 1)) else x.withNext none) = ph :=
        Option.some.inj hi
      have hfl : ph.handle.flags = x.handle.flags := by
        rw [← hi2]
        by_cases hc : i + 1 < (d.peers.map Peer.handle).length
        · rw [if_pos hc]; rfl
        · rw [if_neg hc]; rfl
      obtain ⟨p0, -, rfl⟩ := List.mem_map.mp (mem_of_getElem_opt hx)
      rw [hfl, peer_handle_flags_eq]
      cases hp : p0.public_key.isSome <;>
        simp [WGPEER_HAS_PUBLIC_KEY, WGPEER_REPLACE_ALLOWEDIPS]

/-- Witness for C5: the peer-record hypothesis instantiated on a device with
one peer, via membership in the encoded peer buffer. -/
theorem device_handle_flags_witness :
    ((Device.handle (fun k => k)
        ⟨[119], some ⟨List.replicate 32 1⟩, some 7,
          [⟨none, none, []⟩]⟩).h.flags &&& WGDEVICE_REPLACE_PEERS ≠ 0)
  ∧ ((Device.handle (fun k => k)
        ⟨[119], some ⟨List.replicate 32 1⟩, some 7,
          [⟨none, none, []⟩]⟩).h.private_key = (⟨List.replicate 32 1⟩ : Key).bytes ∧
     (Device.handle (fun k => k)
        ⟨[119], some ⟨List.replicate 32 1⟩, some 7,
          [⟨none, none, []⟩]⟩).h.public_key =
       ((fun k => k) (⟨List.replicate 32 1⟩ : Key)).bytes) :=
  ⟨(device_handle_flags (fun k => k)
      ⟨[119], some ⟨List.replicate 32 1⟩, some 7, [⟨none, none, []⟩]⟩).1,
   (device_handle_flags (fun k => k)
      ⟨[119], some ⟨List.replicate 32 1⟩, some 7,
        [⟨none, none, []⟩]⟩).2.2.2.1 ⟨List.replicate 32 1⟩ rfl⟩

lemma device_handle_name_eq (dp : Key → Key) (d : Device) :
    (Device.handle dp d).h.name =
      d.name ++ (List.replicate 16 0).drop d.name.length := by
  obtain ⟨nm, pk, lp, ps⟩ := d
  cases pk <;> cases lp <;> cases hE : (ps.map Peer.handle).isEmpty <;>
    simp [Device.handle, wg_device.zeroed, hE]

lemma device_handle_first_peer_eq (dp : Key → Key) (d : Device) :
    (Device.handle dp d).h.first_peer =
      if (d.peers.map Peer.handle).isEmpty then none else some 0 := by
  obtain ⟨nm, pk, lp, ps⟩ := d
  cases pk <;> cases lp <;> cases hE : (ps.map Peer.handle).isEmpty <;>
    simp [Device.handle, wg_device.zeroed, hE]

lemma linkPeers_decode (ps : List Peer)
    (hps : ∀ p ∈ ps, p.endpoint.all (fun e => e.1.isV4) = true ∧
      p.allowed_ips.all (fun ip => ip.address.isV4) = true)
    (i : Nat) (a : PeerHandle) (b : Peer)
    (ha : (linkPeers (ps.map Peer.handle))[i]? = some a)
    (hb : ps[i]? = some b) :
    Peer.from_handle a = .ok b := by
  rw [linkPeers_getElem?, List.getElem?_map, hb] at ha
  obtain ⟨hbe, hbi⟩ := hps b (mem_of_getElem_opt hb)
  have hrt : Peer.from_handle (Peer.handle b) = .ok b :=
    peer_roundtrip b hbe hbi
  have ha2 : (if i + 1 < (ps.map Peer.handle).length then
      (Peer.handle b).withNext (some (i + 1))
      else (Peer.handle b).withNext none) = a :=
    Option.some.inj ha
  subst ha2
  by_cases hc : i + 1 < (ps.map Peer.handle).length
  · rw [if_pos hc, peer_from_handle_withNext]
    exact hrt
  · rw [if_neg hc, peer_from_handle_withNext]
    exact hrt

lemma device_peers_decode (ps : List Peer)
    (hps : ∀ p ∈ ps, p.endpoint.all (fun e => e.1.isV4) = true ∧
      p.allowed_ips.all (fun ip => ip.address.isV4) = true) :
    decodeChain Peer.from_handle (fun ph => ph.handle.next_peer)
      (linkPeers (ps.map Peer.handle))
      (if (ps.map Peer.handle).isEmpty then none else some 0)
      (linkPeers (ps.map Peer.handle)).length = .ok ps := by
  cases hE : (ps.map Peer.handle).isEmpty with
  | true =>
    have : ps.map Peer.handle = [] := List.isEmpty_iff.mp hE
    have hps0 : ps = [] := List.map_eq_nil_iff.mp this
    subst hps0
    rfl
  | false =>
    have hne : ps ≠ [] := by
      intro h
      subst h
      simp at hE
    have hlen0 : 0 < ps.length := List.length_pos.mpr hne
    have harena : (linkPeers (ps.map Peer.handle)).length = ps.length := by
      rw [linkPeers_length, List.length_map]
    rw [if_neg (by simp [hE])]
    have := decodeChain_seq Peer.from_handle (fun ph => ph.handle.next_peer)
      (linkPeers (ps.map Peer.handle)) ps
      (by rw [harena])
      (fun i a ha => linkPeers_next (ps.map Peer.handle) i a ha)
      (fun i a b ha hb => linkPeers_decode ps hps i a b ha hb)
      (linkPeers (ps.map Peer.handle)).length 0
      (by omega) (by rw [harena]; exact hlen0)
    rw [this, List.drop_zero]

/-- Claim C1 as stated is false on the code: (1) a device with listen port
Some 0 round-trips to listen port None (0 decodes as "unset"); (2) a device
with an IPv6 allowed IP round-trips to a byte-swapped address (the
`read_ip6_from_in6_addr` union read). Both failures at concrete devices. -/
theorem device_roundtrip_counterexample :
    Device.from_handle (Device.handle (fun k => k)
        ⟨[119], some ⟨List.replicate 32 1⟩, some 0, []⟩) ≠
      .ok ⟨[119], some ⟨List.replicate 32 1⟩, some 0, []⟩
  ∧ Device.from_handle (Device.handle (fun k => k)
        ⟨[119], some ⟨List.replicate 32 1⟩, some 5,
          [⟨none, none, [⟨.v6 1 0 0 0 0 0 0 0, 64⟩]⟩]⟩) ≠
      .ok ⟨[119], some ⟨List.replicate 32 1⟩, some 5,
          [⟨none, none, [⟨.v6 1 0 0 0 0 0 0 0, 64⟩]⟩]⟩ := by
  decide

/-- Claim C1, amended: for every device with a null-free name, a private key,
a nonzero listen port, and any number of peers whose endpoints and allowed-IP
addresses are all IPv4, encoding through `Device::handle` and decoding back
through `Device::from_handle` yields the identical device, peer order and
allowed-IP order preserved (the equality is order-sensitive list equality).
The amendment excludes listen port 0, which decodes as "unset" by design,
and IPv6 addresses, which the decoder byte-swaps (see C2). -/
theorem device_roundtrip_v4 : ∀ (dp : Key → Key) (d : Device) (k : Key)
    (port : Nat),
    (∀ b ∈ d.name, b ≠ 0) →
    d.private_key = some k →
    d.listen_port = some port →
    port ≠ 0 →
    (∀ p ∈ d.peers, p.endpoint.all (fun e => e.1.isV4) = true ∧
      p.allowed_ips.all (fun ip => ip.address.isV4) = true) →
    Device.from_handle (Device.handle dp d) = .ok d := by
  intro dp d k port hname hpk hlp hport hpeers
  have hnameE : (Device.handle dp d).h.name.takeWhile (fun b => b != 0) =
      d.name := by
    rw [device_handle_name_eq, List.drop_replicate]
    exact takeWhile_append_replicate_zero d.name (16 - d.name.length) hname
  have hpkE : (if (Device.handle dp d).h.flags &&& WGDEVICE_HAS_PRIVATE_KEY ≠ 0
      then some (Key.from_bytes (Device.handle dp d).h.private_key)
      else none) = d.private_key := by
    rw [device_handle_flags_eq, device_handle_private_key_eq, hpk]
    simp only [hpk, hlp, Option.isSome_some, if_true]
    rw [if_pos (by decide)]
    rfl
  have hlpE : (if (Device.handle dp d).h.listen_port > 0
      then some (Device.handle dp d).h.listen_port
      else none) = d.listen_port := by
    rw [device_handle_listen_port_eq, hlp]
    simp only [Option.getD_some]
    rw [if_pos (Nat.pos_of_ne_zero hport)]
  have hpdec : decodeChain Peer.from_handle (fun ph => ph.handle.next_peer)
      (Device.handle dp d).peers (Device.handle dp d).h.first_peer
      (Device.handle dp d).peers.length = .ok d.peers := by
    rw [device_handle_peers_eq, device_handle_first_peer_eq]
    exact device_peers_decode d.peers hpeers
  simp only [Device.from_handle, hpdec, hnameE, hpkE, hlpE]

/-- Witness for the amended C1 at a concrete device with one peer, one IPv4
endpoint and one IPv4 allowed IP. -/
theorem device_roundtrip_v4_witness :
    Device.from_handle (Device.handle (fun k => k)
        ⟨[119], some ⟨List.replicate 32 1⟩, some 51820,
          [⟨some ⟨List.replicate 32 2⟩, some (.v4 203 0 113 5, 51820),
            [⟨.v4 10 0 0 2, 32⟩]⟩]⟩) =
      .ok ⟨[119], some ⟨List.replicate 32 1⟩, some 51820,
          [⟨some ⟨List.replicate 32 2⟩, some (.v4 203 0 113 5, 51820),
            [⟨.v4 10 0 0 2, 32⟩]⟩]⟩ :=
  device_roundtrip_v4 (fun k => k)
    ⟨[119], some ⟨List.replicate 32 1⟩, some 51820,
      [⟨some ⟨List.replicate 32 2⟩, some (.v4 203 0 113 5, 51820),
        [⟨.v4 10 0 0 2, 32⟩]⟩]⟩
    ⟨List.replicate 32 1⟩ 51820 (by decide) rfl rfl (by decide) (by decide)
